import Mathlib

/-!
Verification of the phase-driving scheduler and dependency-ordered deployment
executor of `kanzo` (`src/kanzo/core/controller.py`).

The embedding models Python values (markers, hosts, manifests are arbitrary
Python objects: strings or tuples), the Controller's `_plan` dictionary exactly
as `__init__` creates it (including the misspelled `'dependecy'` key at
controller.py line 99), greenlet tasks with cooperative switching, the
single-pass `wait_for_runners` (lines 35-41), the per-record plan bookkeeping
of `_run_phase` (lines 132-140), the non-plan branch of `_run_phase`
(lines 120-168), `run_deployment` (lines 182-218), and the attribute dispatch
used by `run_init` / `run_cleanup` (lines 170-180, 220-230).
-/

deriving instance DecidableEq for Except

namespace Kanzo

/-- A Python object as used for hosts, manifests and markers: a string or a
tuple (tuples are modelled by their cons spine). -/
inductive PyObj where
  | str : String → PyObj
  | tupNil : PyObj
  | tupCons : PyObj → PyObj → PyObj
deriving DecidableEq, Repr

/-- Python errors that the modelled code can raise. -/
inductive PyErr where
  | keyError : String → PyErr
  | keyErrorObj : PyObj → PyErr
  | valueError : PyErr
  | typeError : PyErr
  | attributeError : String → PyErr
  | taskError : PyObj → PyObj → PyErr
deriving DecidableEq, Repr

/-- Iterating a Python object: a tuple yields its elements, a string yields its
characters as one-character strings. -/
def pyIter : PyObj → List PyObj
  | .str s => s.toList.map (fun c => .str (String.mk [c]))
  | .tupNil => []
  | .tupCons hd tl => hd :: pyIter tl

/-- Python unpacking `a, b = v`: succeeds exactly when `v` iterates to two
elements; otherwise a ValueError. -/
def unpack2 (v : PyObj) : Option (PyObj × PyObj) :=
  match pyIter v with
  | [a, b] => some (a, b)
  | _ => none

/-- Structural size of a Python object (used to show that the first component
of a successful unpack is strictly smaller than the unpacked object). -/
def sizeObj : PyObj → Nat
  | .str s => s.toList.length
  | .tupNil => 1
  | .tupCons hd tl => 1 + sizeObj hd + sizeObj tl

/-- A value stored in the Controller's `_plan` dict: the manifests OrderedDict
(marker → list of (host, manifest) pairs), the dependency dict
(marker → set of markers), or one of the three marker sets. -/
inductive PlanVal where
  | odict : List (PyObj × List (PyObj × PyObj)) → PlanVal
  | depm : List (PyObj × List PyObj) → PlanVal
  | pset : List PyObj → PlanVal
deriving DecidableEq, Repr

/-- The `_plan` dict: string keys to plan values, insertion ordered. -/
abbrev PlanDict := List (String × PlanVal)

/-- Python dict read `d[k]`: KeyError when the key is absent. -/
def pyGet (d : PlanDict) (k : String) : Except PyErr PlanVal :=
  match d.find? (fun p => p.1 == k) with
  | some p => .ok p.2
  | none => .error (.keyError k)

/-- Python dict write `d[k] = v` (update in place, else append). -/
def pySet (d : PlanDict) (k : String) (v : PlanVal) : PlanDict :=
  match d with
  | [] => [(k, v)]
  | p :: t => if p.1 = k then (k, v) :: t else p :: pySet t k v

/-- View a plan value as a Python set. -/
def asSet : PlanVal → Except PyErr (List PyObj)
  | .pset s => .ok s
  | _ => .error .typeError

/-- View a plan value as the manifests OrderedDict. -/
def asOdict : PlanVal → Except PyErr (List (PyObj × List (PyObj × PyObj)))
  | .odict m => .ok m
  | _ => .error .typeError

/-- View a plan value as the dependency dict. -/
def asDepm : PlanVal → Except PyErr (List (PyObj × List PyObj))
  | .depm m => .ok m
  | _ => .error .typeError

/-- Read a plan entry as a set (`self._plan[k]` where a set is stored). -/
def getSet (d : PlanDict) (k : String) : Except PyErr (List PyObj) :=
  match pyGet d k with
  | .error e => .error e
  | .ok v => asSet v

/-- Python `set.add`. -/
def setAdd (s : List PyObj) (x : PyObj) : List PyObj :=
  if x ∈ s then s else s ++ [x]

/-- Python `set.remove`: KeyError when the element is absent. -/
def setRemove (s : List PyObj) (x : PyObj) : Except PyErr (List PyObj) :=
  if x ∈ s then .ok (s.erase x) else .error (.keyErrorObj x)

/-- Lookup in an object-keyed association list (dict with PyObj keys). -/
def olookup {α : Type} (m : List (PyObj × α)) (k : PyObj) : Option α :=
  match m.find? (fun p => p.1 == k) with
  | some p => some p.2
  | none => none

/-- `manifests.setdefault(marker, []).append(pair)` on the OrderedDict:
append to the existing list, else insert the key at the end. -/
def odictAppend (m : List (PyObj × List (PyObj × PyObj))) (k : PyObj)
    (pair : PyObj × PyObj) : List (PyObj × List (PyObj × PyObj)) :=
  match m with
  | [] => [(k, [pair])]
  | p :: t => if p.1 = k then (p.1, p.2 ++ [pair]) :: t else p :: odictAppend t k pair

/-- `dependency.setdefault(marker, set()).update(xs)`. -/
def depUpdate (m : List (PyObj × List PyObj)) (k : PyObj) (xs : List PyObj) :
    List (PyObj × List PyObj) :=
  match m with
  | [] => [(k, xs.foldl setAdd [])]
  | p :: t => if p.1 = k then (p.1, xs.foldl setAdd p.2) :: t else p :: depUpdate t k xs

/-- The `_plan` dict exactly as `Controller.__init__` creates it
(controller.py lines 97-103); note the misspelled `'dependecy'` key. -/
def initPlan : PlanDict :=
  [("manifests", .odict []),
   ("dependecy", .depm []),
   ("waiting", .pset []),
   ("in-progress", .pset []),
   ("finished", .pset [])]

/-- Behaviour of a greenlet body: each `yieldThen` is an explicit switch back
to the parent; `done` is normal completion; `fail` raises when next resumed. -/
inductive TaskBeh where
  | done : TaskBeh
  | fail : TaskBeh
  | yieldThen : TaskBeh → TaskBeh
deriving DecidableEq, Repr

/-- A greenlet task: a label identifying it (for step tasks `(step, host)`,
for deploy tasks `(marker, host)`), its remaining behaviour, and whether it
has already died. -/
structure Task where
  label : PyObj × PyObj
  rem : TaskBeh
  dead : Bool
deriving DecidableEq, Repr

/-- `run.switch()`: resume a greenlet.  A completing greenlet dies; an
uncaught exception in the greenlet propagates to the switching parent;
a yield hands control back with the rest of the behaviour pending.
Switching to a dead greenlet returns immediately. -/
def switchTask (t : Task) : Except PyErr Task :=
  if t.dead then .ok t
  else
    match t.rem with
    | .done => .ok { t with dead := true }
    | .fail => .error (.taskError t.label.1 t.label.2)
    | .yieldThen b => .ok { t with rem := b }

/-- `wait_for_runners` (controller.py lines 35-41): a SINGLE pass over the
runner set — each runner already dead at visit time is removed, each live
runner is switched exactly once; the function then returns, regardless of
whether live runners remain. -/
def waitForRunners : List Task → Except PyErr (List Task)
  | [] => .ok []
  | t :: ts =>
    if t.dead then waitForRunners ts
    else
      match switchTask t with
      | .error e => .error e
      | .ok t2 =>
        match waitForRunners ts with
        | .error e => .error e
        | .ok r => .ok (t2 :: r)

/-- Observable events of a run: status-callback invocations
(`self._callbacks['status'](unit_type, unit_name, unit_status)`),
`drone.add_manifest(manifest)` registrations, and the start of a per-host
deploy task (`run.switch(manifest, ...)` at controller.py line 212). -/
inductive Event where
  | status : String → String → String → Event
  | addManifest : PyObj → PyObj → Event
  | deploySpawn : PyObj → PyObj → PyObj → Event
deriving DecidableEq, Repr

/-- The per-record bookkeeping of the plan phase, `_run_phase` lines 132-140:
`self._drones[host].add_manifest(manifest)`, `self._plan['waiting'].add(marker)`,
`self._plan['manifests'].setdefault(marker, []).append((host, manifest))`,
`self._plan['dependency'].setdefault(marker, set()).update(prereqs or set())`.
Returns the plan dict reached, the emitted events, and the raised error if any. -/
def processRecord (drones : List PyObj) (d : PlanDict)
    (host manifest marker : PyObj) (prereqs : Option (List PyObj)) :
    PlanDict × List Event × Option PyErr :=
  if host ∈ drones then
    let evs := [Event.addManifest host manifest]
    match getSet d "waiting" with
    | .error e => (d, evs, some e)
    | .ok w =>
      let d1 := pySet d "waiting" (.pset (setAdd w marker))
      match pyGet d1 "manifests" with
      | .error e => (d1, evs, some e)
      | .ok mv =>
        match asOdict mv with
        | .error e => (d1, evs, some e)
        | .ok ms =>
          let d2 := pySet d1 "manifests" (.odict (odictAppend ms marker (host, manifest)))
          match pyGet d2 "dependency" with
          | .error e => (d2, evs, some e)
          | .ok dv =>
            match asDepm dv with
            | .error e => (d2, evs, some e)
            | .ok dep =>
              let xs := match prereqs with
                | none => []
                | some l => l
              (pySet d2 "dependency" (.depm (depUpdate dep marker xs)), evs, none)
  else (d, [], some (.keyErrorObj host))

/-- State of the deployment executor: the `_plan` dict, the local `runners`
dict (marker → set of greenlet tasks, controller.py line 185), and the
events observed so far. -/
structure DeployState where
  plan : PlanDict
  runners : List (PyObj × List Task)
  events : List Event
deriving DecidableEq, Repr

/-- `runners.setdefault(marker, set()).add(run)` (controller.py line 211). -/
def raddTask (r : List (PyObj × List Task)) (mk : PyObj) (t : Task) :
    List (PyObj × List Task) :=
  match r with
  | [] => [(mk, [t])]
  | p :: rest => if p.1 = mk then (p.1, p.2 ++ [t]) :: rest else p :: raddTask rest mk t

/-- Replace the task set stored under a marker in the `runners` dict. -/
def rupdate (r : List (PyObj × List Task)) (mk : PyObj) (ts : List Task) :
    List (PyObj × List Task) :=
  match r with
  | [] => []
  | p :: rest => if p.1 = mk then (p.1, ts) :: rest else p :: rupdate rest mk ts

/-- Lines 209-212: for every `(host, manifest)` in the unpacked `manifests`
value, look the host up in `self._drones`, create a deploy greenlet, add it to
`runners[marker]` and start it with `run.switch(manifest, ...)`.  `beh` gives
the external behaviour of `drone.deploy` for a (host, manifest) pair. -/
def spawnPairs (drones : List PyObj) (beh : PyObj → PyObj → TaskBeh)
    (marker : PyObj) : List PyObj → DeployState → DeployState × Option PyErr
  | [], st => (st, none)
  | p :: ps, st =>
    match unpack2 p with
    | none => (st, some .valueError)
    | some (host, mani) =>
      if host ∈ drones then
        match switchTask ⟨(marker, host), beh host mani, false⟩ with
        | .error e =>
          ({ st with
              runners := raddTask st.runners marker ⟨(marker, host), beh host mani, false⟩,
              events := st.events ++ [Event.deploySpawn marker host mani] }, some e)
        | .ok t2 =>
          spawnPairs drones beh marker ps
            { st with
                runners := raddTask st.runners marker t2,
                events := st.events ++ [Event.deploySpawn marker host mani] }
      else (st, some (.keyErrorObj host))

/-- Lines 202-212: if the marker is not yet tracked in `runners`, remove it
from `waiting`, add it to `in-progress`, and start all its deploy tasks. -/
def initiateIfNew (drones : List PyObj) (beh : PyObj → PyObj → TaskBeh)
    (st : DeployState) (marker manivar : PyObj) : DeployState × Option PyErr :=
  match olookup st.runners marker with
  | some _ => (st, none)
  | none =>
    match getSet st.plan "waiting" with
    | .error e => (st, some e)
    | .ok w =>
      match setRemove w marker with
      | .error e => (st, some e)
      | .ok w2 =>
        match getSet (pySet st.plan "waiting" (.pset w2)) "in-progress" with
        | .error e => ({ st with plan := pySet st.plan "waiting" (.pset w2) }, some e)
        | .ok ip =>
          spawnPairs drones beh marker (pyIter manivar)
            { st with
                plan :=
                  pySet (pySet st.plan "waiting" (.pset w2)) "in-progress"
                    (.pset (setAdd ip marker)) }

/-- Lines 214-217: after draining, if no runner remains tracked under the
marker, add it to `finished` and remove it from `in-progress`. -/
def finishMarker (d : PlanDict) (marker : PyObj) : Except PyErr PlanDict :=
  match getSet d "finished" with
  | .error e => .error e
  | .ok f =>
    match getSet (pySet d "finished" (.pset (setAdd f marker))) "in-progress" with
    | .error e => .error e
    | .ok ip =>
      match setRemove ip marker with
      | .error e => .error e
      | .ok ip2 =>
        .ok (pySet (pySet d "finished" (.pset (setAdd f marker)))
          "in-progress" (.pset ip2))

/-- The loop body of `run_deployment` for one key of the `manifests` dict
(controller.py lines 188-217).  Note: iterating the OrderedDict yields only
its KEYS, so line 188 unpacks the marker key itself into
`(marker, manifests)`. -/
def processKey (drones : List PyObj) (beh : PyObj → PyObj → TaskBeh)
    (st : DeployState) (k : PyObj) : DeployState × Option PyErr :=
  match unpack2 k with
  | none => (st, some .valueError)
  | some (marker, manivar) =>
    match getSet st.plan "finished" with
    | .error e => (st, some e)
    | .ok fin =>
      if marker ∈ fin then (st, none)
      else
        match pyGet st.plan "dependency" with
        | .error e => (st, some e)
        | .ok dv =>
          match asDepm dv with
          | .error e => (st, some e)
          | .ok dep =>
            match olookup dep marker with
            | none => (st, some (.keyErrorObj marker))
            | some reqs =>
              if reqs.filter (fun x => decide (x ∉ fin)) ≠ [] then (st, none)
              else
                match initiateIfNew drones beh st marker manivar with
                | (st1, some e) => (st1, some e)
                | (st1, none) =>
                  match olookup st1.runners marker with
                  | none => (st1, some (.keyErrorObj marker))
                  | some ts =>
                    match waitForRunners ts with
                    | .error e => (st1, some e)
                    | .ok ts2 =>
                      if ts2 = [] then
                        match finishMarker st1.plan marker with
                        | .error e =>
                          ({ st1 with runners := rupdate st1.runners marker ts2 }, some e)
                        | .ok d2 =>
                          ({ st1 with
                              plan := d2
                              runners := rupdate st1.runners marker ts2 }, none)
                      else
                        ({ st1 with runners := rupdate st1.runners marker ts2 }, none)

/-- One full scan of the `manifests` keys (the `for` loop at line 188). -/
def scanPass (drones : List PyObj) (beh : PyObj → PyObj → TaskBeh) :
    List PyObj → DeployState → DeployState × Option PyErr
  | [], st => (st, none)
  | k :: ks, st =>
    match processKey drones beh st k with
    | (st1, some e) => (st1, some e)
    | (st1, none) => scanPass drones beh ks st1

/-- Truthiness of the `while` condition at line 186, with Python's
short-circuit `or`: `self._plan['waiting'] or self._plan['in-progress']`. -/
def loopCond (d : PlanDict) : Except PyErr Bool :=
  match getSet d "waiting" with
  | .error e => .error e
  | .ok w =>
    if w ≠ [] then .ok true
    else
      match getSet d "in-progress" with
      | .error e => .error e
      | .ok ip => .ok (ip ≠ [])

/-- Outcome of the deployment phase: normal completion, a propagated Python
error, or running out of fuel (the modelled `while` loop still spinning). -/
inductive DeployOutcome where
  | completed : DeployOutcome
  | errored : PyErr → DeployOutcome
  | outOfFuel : DeployOutcome
deriving DecidableEq, Repr

/-- The `while` loop of `run_deployment` (lines 186-217), fuelled. -/
def deployLoop (drones : List PyObj) (beh : PyObj → PyObj → TaskBeh) :
    Nat → DeployState → DeployState × DeployOutcome
  | 0, st =>
    match loopCond st.plan with
    | .error e => (st, .errored e)
    | .ok false => (st, .completed)
    | .ok true => (st, .outOfFuel)
  | fuel + 1, st =>
    match loopCond st.plan with
    | .error e => (st, .errored e)
    | .ok false => (st, .completed)
    | .ok true =>
      match pyGet st.plan "manifests" with
      | .error e => (st, .errored e)
      | .ok mv =>
        match asOdict mv with
        | .error e => (st, .errored e)
        | .ok ms =>
          match scanPass drones beh (ms.map Prod.fst) st with
          | (st1, some e) => (st1, .errored e)
          | (st1, none) => deployLoop drones beh fuel st1

/-- `Controller.run_deployment` (controller.py lines 182-218): emit the
deployment phase start event, drain the plan, and emit the end event on
normal completion.  `drones` is the key set of `self._drones`;
`beh` is the external behaviour of each per-host `drone.deploy`. -/
def runDeployment (drones : List PyObj) (beh : PyObj → PyObj → TaskBeh)
    (d : PlanDict) (fuel : Nat) : DeployState × DeployOutcome :=
  let st0 : DeployState := ⟨d, [], [Event.status "phase" "deployment" "start"]⟩
  match deployLoop drones beh fuel st0 with
  | (st, .completed) =>
    ({ st with events := st.events ++ [Event.status "phase" "deployment" "end"] },
     .completed)
  | r => r

/-- The markers currently recorded in the plan's `finished` set. -/
def finishedMarkers (st : DeployState) : List PyObj :=
  match getSet st.plan "finished" with
  | .ok f => f
  | .error _ => []

/-- The markers currently recorded in the plan's `waiting` set. -/
def waitingMarkers (st : DeployState) : List PyObj :=
  match getSet st.plan "waiting" with
  | .ok w => w
  | .error _ => []

/-- Well-formedness of the executor's `runners` dict: every task tracked
under a marker is labelled with that marker (tasks are only ever created at
line 210-212 and stored under the marker being initiated). -/
def runnersWF (st : DeployState) : Prop :=
  ∀ p ∈ st.runners, ∀ t ∈ p.2, t.label.1 = p.1

/-- A registered plugin step for a phase: the callable's `func_name` and the
external behaviour of its body when started as a greenlet on a given host. -/
structure PhaseStep where
  name : String
  beh : PyObj → TaskBeh

/-- A behaviour that never raises. -/
def raiseFree : TaskBeh → Bool
  | .done => true
  | .fail => false
  | .yieldThen b => raiseFree b

/-- The body of `_install_puppet` (controller.py lines 112-118): run
`drone.init_host()`, switch to the parent, record `drone.discover()`, switch
to the parent again, then `drone.configure()` and finish.  The three drone
operations are external host-agent calls, modelled as completing normally. -/
def installPuppetBeh : TaskBeh := .yieldThen (.yieldThen .done)

/-- Lines 143-151 / 155-166: create one greenlet per host for the given
behaviour and start each with `run.switch(...)` as soon as it is created. -/
def startHostTasks (name : String) (beh : PyObj → TaskBeh) :
    List PyObj → Except PyErr (List Task)
  | [] => .ok []
  | h :: hs =>
    match switchTask ⟨(.str name, h), beh h, false⟩ with
    | .error e => .error e
    | .ok t =>
      match startHostTasks name beh hs with
      | .error e => .error e
      | .ok ts => .ok (t :: ts)

/-- The step loop of `_run_phase` for a non-plan phase (lines 122-153, else
branch): for each step in registration order, emit the step start event, run
the step once per host as a greenlet, make one `wait_for_runners` pass, and
emit the step end event. -/
def runSteps (hosts : List PyObj) : List PhaseStep → List Event × Option PyErr
  | [] => ([], none)
  | s :: ss =>
    let ev0 := [Event.status "step" s.name "start"]
    match startHostTasks s.name s.beh hosts with
    | .error e => (ev0, some e)
    | .ok ts =>
      match waitForRunners ts with
      | .error e => (ev0, some e)
      | .ok _ =>
        match runSteps hosts ss with
        | (evs, r) => (ev0 ++ [Event.status "step" s.name "end"] ++ evs, r)

/-- `_run_phase` for a non-plan phase (controller.py lines 120-168): the
phase start event, the step loop, the phase post-run (for `init`, one
`_install_puppet` greenlet per host; for other non-plan phases the drone loop
`break`s immediately so no post task is created), and the phase end event.
The plan-phase step branch (lines 124-140) is modelled by `processRecord`. -/
def runPhaseNonPlan (phase : String) (steps : List PhaseStep)
    (hosts : List PyObj) : List Event × Option PyErr :=
  let start := [Event.status "phase" phase "start"]
  match runSteps hosts steps with
  | (evs, some e) => (start ++ evs, some e)
  | (evs, none) =>
    if phase = "init" then
      match startHostTasks "_install_puppet" (fun _ => installPuppetBeh) hosts with
      | .error e => (start ++ evs, some e)
      | .ok ts =>
        match waitForRunners ts with
        | .error e => (start ++ evs, some e)
        | .ok _ => (start ++ evs ++ [Event.status "phase" phase "end"], none)
    else (start ++ evs ++ [Event.status "phase" phase "end"], none)

/-- The methods defined on `Controller` (controller.py lines 44-240). -/
def controllerMethods : List String :=
  ["__init__", "_iter_phase", "_run_phase", "run_init", "run_deployment",
   "run_cleanup", "register_status_callback"]

/-- Python attribute lookup `self.<name>` on a Controller instance:
AttributeError when no such method is defined. -/
def getattrController (name : String) : Except PyErr Unit :=
  if name ∈ controllerMethods then .ok () else .error (.attributeError name)

/-- A statement of `run_init` / `run_cleanup`: a status emission, a method
call `self.<name>(<phase>)` resolved by attribute lookup, or the drone
cleanup loop (lines 228-229). -/
inductive CStmt where
  | emit : String → String → String → CStmt
  | callSelf : String → String → CStmt
  | droneCleanAll : CStmt
deriving DecidableEq, Repr

/-- The body of `Controller.run_init` (controller.py lines 178-180):
three calls to the undefined `self.run_phase`. -/
def runInitBody : List CStmt :=
  [.callSelf "run_phase" "init", .callSelf "run_phase" "prep",
   .callSelf "run_phase" "plan"]

/-- The body of `Controller.run_cleanup` (controller.py lines 226-230).
Note the end event's unit name `'cleanuo'` at line 230. -/
def runCleanupBody : List CStmt :=
  [.emit "phase" "cleanup" "start",
   .callSelf "run_phase" "clean",
   .droneCleanAll,
   .emit "phase" "cleanuo" "end"]

/-- Execute a statement list: emissions append status events; a method call
first resolves the attribute (AttributeError aborts; `run_phase` is not
among `controllerMethods`, so a successful resolution of these calls cannot
occur and is modelled as a no-op); the drone cleanup loop emits nothing. -/
def execStmts : List CStmt → List Event × Option PyErr
  | [] => ([], none)
  | .emit a b c :: rest =>
    match execStmts rest with
    | (evs, r) => (Event.status a b c :: evs, r)
  | .callSelf name _ :: rest =>
    match getattrController name with
    | .error e => ([], some e)
    | .ok _ => execStmts rest
  | .droneCleanAll :: rest => execStmts rest

/-- Does a statement emit an `end`-status event? -/
def isEndEmit : CStmt → Bool
  | .emit _ _ s => s = "end"
  | _ => false

/-- Is an event a status event? -/
def isStatus : Event → Bool
  | .status _ _ _ => true
  | _ => false

/-! ### Concrete inputs used by the claim theorems -/

/-- A deploy host. -/
def host1 : PyObj := .str "h1"

/-- A second deploy host. -/
def host2 : PyObj := .str "h2"

/-- A manifest. -/
def mani1 : PyObj := .str "m1"

/-- A second manifest. -/
def mani2 : PyObj := .str "m2"

/-- Marker A of the spec scenarios. -/
def markerA : PyObj := .str "markerA"

/-- Marker B of the spec scenarios. -/
def markerB : PyObj := .str "markerB"

/-- The plan state reached by processing the single record
`(host1, mani1, markerA, None)` from the fresh plan: the marker is in
`waiting` and `manifests`, the fresh dict still carries the misspelled
`'dependecy'` key, and the record processing has raised. -/
def planA : PlanDict :=
  [("manifests", .odict [(markerA, [(host1, mani1)])]),
   ("dependecy", .depm []),
   ("waiting", .pset [markerA]),
   ("in-progress", .pset []),
   ("finished", .pset [])]

/-- The plan of the spec scenario: marker A with no prerequisites, marker B
with prerequisite A, with the dependency data stored under the key that
`Controller.__init__` actually creates. -/
def planAB : PlanDict :=
  [("manifests", .odict [(markerA, [(host1, mani1)]), (markerB, [(host2, mani2)])]),
   ("dependecy", .depm [(markerA, []), (markerB, [markerA])]),
   ("waiting", .pset [markerA, markerB]),
   ("in-progress", .pset []),
   ("finished", .pset [])]

/-- A cyclic plan: marker A requires marker B and marker B requires marker A. -/
def planCyc : PlanDict :=
  [("manifests", .odict [(markerA, [(host1, mani1)]), (markerB, [(host2, mani2)])]),
   ("dependecy", .depm [(markerA, [markerB]), (markerB, [markerA])]),
   ("waiting", .pset [markerA, markerB]),
   ("in-progress", .pset []),
   ("finished", .pset [])]

/-- A deploy behaviour in which every per-host deploy completes normally. -/
def behOk : PyObj → PyObj → TaskBeh := fun _ _ => .done

/-- The (host1, mani1) pair as a Python tuple. -/
def pairHM : PyObj := .tupCons host1 (.tupCons mani1 .tupNil)

/-- A marker key shaped as the tuple `(markerA, ((host1, mani1),))`, so that
line 188's key unpacking yields marker `markerA` and a non-empty pair list:
with such a key the deploy-spawning path of lines 202-217 is reachable. -/
def markerKeyA : PyObj :=
  .tupCons markerA (.tupCons (.tupCons pairHM .tupNil) .tupNil)

/-- A plan-dict state in `run_deployment`'s input space on which the deploy
tasks of a marker actually start: it carries a `'dependency'` key (which
`__init__` never creates — the executor's spawn path is dead code on real
plans) and the tuple-shaped marker key above. -/
def planFail : PlanDict :=
  [("manifests", .odict [(markerKeyA, [])]),
   ("dependency", .depm [(markerA, [])]),
   ("waiting", .pset [markerA]),
   ("in-progress", .pset []),
   ("finished", .pset [])]

/-! ### Claim theorems: plan bookkeeping and the deployment executor -/

/-- C3: the claim says each plan record registers the manifest with the
host's agent, adds the marker to `waiting`, appends the (host, manifest)
pair to `manifests[marker]`, and unions the prerequisites into
`dependency[marker]`.  The code performs the first three actions but then
raises `KeyError('dependency')`: `__init__` created the dependency map under
the misspelled key `'dependecy'` (line 99) while `_run_phase` reads
`self._plan['dependency']` (line 138), so the prerequisite union never
happens and the plan phase aborts on its first record. -/
theorem record_processing_raises_keyerror_dependency :
    processRecord [host1] initPlan host1 mani1 markerA none
      = (planA, [Event.addManifest host1 mani1], some (.keyError "dependency"))
    ∧ pyGet planA "waiting" = .ok (.pset [markerA])
    ∧ pyGet planA "manifests" = .ok (.odict [(markerA, [(host1, mani1)])])
    ∧ pyGet planA "dependency" = .error (.keyError "dependency") := by
  decide

/-- C1: the claim says every marker transitions
waiting → in-progress → finished exactly once.  On the code, marker A of the
one-record plan never transitions at all: planning a record raises
`KeyError('dependency')`, and `run_deployment` on the resulting plan raises
`ValueError` while unpacking the marker key on its first scan (line 188
iterates only the keys of `manifests`), leaving marker A in `waiting` and the
`finished` set empty for ever. -/
theorem marker_never_transitions :
    (processRecord [host1] initPlan host1 mani1 markerA none).2.2
      = some (.keyError "dependency")
    ∧ runDeployment [host1] behOk planA 5
      = (⟨planA, [], [Event.status "phase" "deployment" "start"]⟩,
         .errored .valueError)
    ∧ waitingMarkers (runDeployment [host1] behOk planA 5).1 = [markerA]
    ∧ finishedMarkers (runDeployment [host1] behOk planA 5).1 = [] := by
  decide

/-- C2: the claim says the executor deploys marker A's hosts and only then
starts marker B's hosts.  On the code, given the plan with markers A (no
prerequisites) and B (prerequisite A), `run_deployment` raises `ValueError`
on its first scan (unpacking the marker key at line 188) before starting any
deploy task: neither A's nor B's (host, manifest) pairs are ever deployed
and no marker ever enters `in-progress` or `finished`. -/
theorem a_before_b_never_deploys :
    runDeployment [host1, host2] behOk planAB 5
      = (⟨planAB, [], [Event.status "phase" "deployment" "start"]⟩,
         .errored .valueError)
    ∧ finishedMarkers (runDeployment [host1, host2] behOk planAB 5).1 = []
    ∧ (runDeployment [host1, host2] behOk planAB 5).1.events.filter
        (fun ev => !isStatus ev) = [] := by
  decide

/-- C5: the claim says a dependency cycle is detected and reported as a
configuration error.  The code contains no deadlock detection at all: on the
cyclic plan (A requires B, B requires A) `run_deployment` terminates with the
same generic `ValueError` (marker-key unpacking, line 188) that it raises on
the equivalent acyclic plan — the error neither names the blocked markers
nor distinguishes the cycle, so no configuration error is detected or
reported. -/
theorem cycle_not_detected :
    (runDeployment [host1, host2] behOk planCyc 9).2 = .errored .valueError
    ∧ (runDeployment [host1, host2] behOk planAB 9).2 = .errored .valueError := by
  decide

/-- C4: the claim (and the function's own docstring, line 36) says
`wait_for_runners` switches between the runners until all are finished.  The
body is a single pass: given one runner that yields once before finishing,
the call returns with the runner still alive (and still in the set), so the
caller proceeds while the task has not completed. -/
theorem wait_for_runners_single_pass :
    waitForRunners [⟨(.str "step1", host1), .yieldThen .done, false⟩]
      = .ok [⟨(.str "step1", host1), .done, false⟩]
    ∧ (⟨(.str "step1", host1), TaskBeh.done, false⟩ : Task).dead = false :=
  ⟨rfl, rfl⟩

/-! ### Claim theorems: run_init / run_cleanup dispatch and events -/

/-- C8: every invocation of `run_init` and of `run_cleanup` raises an
`AttributeError` before executing any phase step: both bodies call
`self.run_phase`, but the only phase-running method defined on `Controller`
is `_run_phase`, so the attribute lookup fails.  `run_init` emits no event at
all; `run_cleanup` emits only the phase start event before raising. -/
theorem run_init_and_cleanup_raise_attributeerror :
    execStmts runInitBody = ([], some (.attributeError "run_phase"))
    ∧ execStmts runCleanupBody
      = ([Event.status "phase" "cleanup" "start"],
         some (.attributeError "run_phase"))
    ∧ "run_phase" ∉ controllerMethods
    ∧ "_run_phase" ∈ controllerMethods := by
  decide

/-- C10: `run_cleanup` emits a phase start event with unit name `'cleanup'`
(line 226) while its only end-event emission carries the misspelled unit
name `'cleanuo'` (line 230); in execution the body aborts even earlier (C8),
so a status-callback consumer pairing start and end events by unit name
never observes an end event for the `'cleanup'` phase. -/
theorem cleanup_end_event_misspelled :
    CStmt.emit "phase" "cleanup" "start" ∈ runCleanupBody
    ∧ runCleanupBody.filter isEndEmit = [.emit "phase" "cleanuo" "end"]
    ∧ CStmt.emit "phase" "cleanup" "end" ∉ runCleanupBody
    ∧ (execStmts runCleanupBody).1 = [Event.status "phase" "cleanup" "start"]
    ∧ Event.status "phase" "cleanup" "end" ∉ (execStmts runCleanupBody).1 := by
  decide

/-! ### The init-phase event sequence (C7) -/

/-- Switching to a task whose remaining behaviour never raises succeeds and
leaves a task whose remaining behaviour never raises. -/
theorem switchTask_raiseFree (t : Task) (hrf : raiseFree t.rem = true) :
    ∃ t2, switchTask t = .ok t2 ∧ raiseFree t2.rem = true := by
  unfold switchTask
  by_cases hd : t.dead
  · exact ⟨t, by simp [hd], hrf⟩
  · cases hb : t.rem with
    | done => exact ⟨{ t with dead := true }, by simp [hd, hb], by simpa [hb] using hrf⟩
    | fail => rw [hb] at hrf; simp [raiseFree] at hrf
    | yieldThen b =>
      refine ⟨{ t with rem := b }, by simp [hd, hb], ?_⟩
      rw [hb] at hrf
      simpa [raiseFree] using hrf

/-- Starting one greenlet per host succeeds when no step body raises on its
first segment, and all started tasks remain raise-free. -/
theorem startHostTasks_raiseFree (name : String) (beh : PyObj → TaskBeh)
    (hosts : List PyObj) (hrf : ∀ h ∈ hosts, raiseFree (beh h) = true) :
    ∃ ts, startHostTasks name beh hosts = .ok ts
      ∧ ∀ t ∈ ts, raiseFree t.rem = true := by
  induction hosts with
  | nil => exact ⟨[], rfl, by simp⟩
  | cons h hs ih =>
    obtain ⟨t, hsw, htrf⟩ :=
      switchTask_raiseFree ⟨(.str name, h), beh h, false⟩ (hrf h (by simp))
    obtain ⟨ts, hts, htsrf⟩ := ih (fun x hx => hrf x (by simp [hx]))
    refine ⟨t :: ts, ?_, ?_⟩
    · simp [startHostTasks, hsw, hts]
    · intro x hx
      rcases List.mem_cons.mp hx with hx | hx
      · exact hx ▸ htrf
      · exact htsrf x hx

/-- A `wait_for_runners` pass over raise-free tasks never raises. -/
theorem waitForRunners_raiseFree (ts : List Task)
    (hrf : ∀ t ∈ ts, raiseFree t.rem = true) :
    ∃ ts2, waitForRunners ts = .ok ts2 := by
  induction ts with
  | nil => exact ⟨[], rfl⟩
  | cons t rest ih =>
    obtain ⟨ts2, hts2⟩ := ih (fun x hx => hrf x (by simp [hx]))
    by_cases hd : t.dead
    · exact ⟨ts2, by simp [waitForRunners, hd, hts2]⟩
    · obtain ⟨t2, hsw, _⟩ := switchTask_raiseFree t (hrf t (by simp))
      exact ⟨t2 :: ts2, by simp [waitForRunners, hd, hsw, hts2]⟩

/-- C7: for an init phase with exactly one registered step and one host,
whose step body does not raise, the registered status callback receives
exactly the ordered event sequence phase-init-start, step-start, step-end,
phase-init-end: the step events bracket the step's execution inside the
phase's start and end events, and nothing else is emitted. -/
theorem init_phase_event_sequence (s : PhaseStep) (h : PyObj)
    (hrf : raiseFree (s.beh h) = true) :
    runPhaseNonPlan "init" [s] [h]
      = ([Event.status "phase" "init" "start",
          Event.status "step" s.name "start",
          Event.status "step" s.name "end",
          Event.status "phase" "init" "end"], none) := by
  obtain ⟨ts, hts, htsrf⟩ :=
    startHostTasks_raiseFree s.name s.beh [h] (by simpa using hrf)
  obtain ⟨ts2, hts2⟩ := waitForRunners_raiseFree ts htsrf
  obtain ⟨is_, his⟩ :=
    startHostTasks_raiseFree "_install_puppet" (fun _ => installPuppetBeh) [h]
      (by intro x hx; rfl)
  obtain ⟨is2, his2⟩ := waitForRunners_raiseFree is_ his.2
  simp [runPhaseNonPlan, runSteps, hts, hts2, his.1, his2]

/-- Witness for C7 at a concrete step and host. -/
theorem init_phase_event_sequence_witness :
    raiseFree ((PhaseStep.mk "setup_step" (fun _ => .yieldThen .done)).beh host1) = true
    ∧ runPhaseNonPlan "init" [⟨"setup_step", fun _ => .yieldThen .done⟩] [host1]
      = ([Event.status "phase" "init" "start",
          Event.status "step" "setup_step" "start",
          Event.status "step" "setup_step" "end",
          Event.status "phase" "init" "end"], none) :=
  ⟨rfl, init_phase_event_sequence ⟨"setup_step", fun _ => .yieldThen .done⟩ host1 rfl⟩

/-! ### Every non-empty plan makes run_deployment raise on its first scan (C9) -/

/-- The first component produced by a successful Python unpack is strictly
structurally smaller than the unpacked object. -/
theorem unpack2_size {v m r : PyObj} (h : unpack2 v = some (m, r)) :
    sizeObj m < sizeObj v := by
  unfold unpack2 at h
  cases v with
  | str s =>
    simp only [pyIter] at h
    rcases hl : s.toList with _ | ⟨c1, _ | ⟨c2, _ | ⟨c3, cs⟩⟩⟩ <;>
      rw [hl] at h <;> simp at h
    obtain ⟨hm, _⟩ := h
    have hszv : sizeObj (.str s) = 2 := by
      have hv : sizeObj (.str s) = s.toList.length := rfl
      rw [hv, hl]
      rfl
    have hszm : sizeObj m = 1 := by rw [← hm]; rfl
    omega
  | tupNil => simp [pyIter] at h
  | tupCons hd tl =>
    simp only [pyIter] at h
    rcases ht : pyIter tl with _ | ⟨x, _ | ⟨y, ys⟩⟩ <;> rw [ht] at h <;> simp at h
    obtain ⟨hm, _⟩ := h
    rw [← hm]
    simp [sizeObj]
    omega

/-- No finite key set can consist only of keys that unpack into a marker
already in `finished` when `finished` is itself drawn from the key set:
the first unpack component is strictly smaller, giving an infinite descent. -/
theorem no_all_skip (ks f : List PyObj) (hfk : ∀ x ∈ f, x ∈ ks)
    (hne : ks ≠ [])
    (hall : ∀ k ∈ ks, ∃ m r, unpack2 k = some (m, r) ∧ m ∈ f) : False := by
  have key : ∀ n, ∀ k ∈ ks, sizeObj k ≤ n → False := by
    intro n
    induction n with
    | zero =>
      intro k hk hsz
      obtain ⟨m, r, hu, _⟩ := hall k hk
      have := unpack2_size hu
      omega
    | succ n ih =>
      intro k hk hsz
      obtain ⟨m, r, hu, hmf⟩ := hall k hk
      have hlt := unpack2_size hu
      exact ih m (hfk m hmf) (by omega)
  obtain ⟨k0, hk0⟩ := List.exists_mem_of_ne_nil ks hne
  exact key (sizeObj k0) k0 hk0 le_rfl

/-- A key whose unpacked marker is already in `finished` is skipped by the
scan without touching the state. -/
theorem processKey_skip (drones : List PyObj) (beh : PyObj → PyObj → TaskBeh)
    (st : DeployState) (k m r : PyObj) (f : List PyObj)
    (hf : getSet st.plan "finished" = .ok f)
    (hu : unpack2 k = some (m, r)) (hmf : m ∈ f) :
    processKey drones beh st k = (st, none) := by
  simp [processKey, hu, hf, hmf]

/-- With the dependency map missing from the plan dict (as `__init__` leaves
it), any key that is not skipped makes the scan raise, without touching the
state: either the key does not unpack (`ValueError`) or the read of
`self._plan['dependency']` raises `KeyError`. -/
theorem processKey_err (drones : List PyObj) (beh : PyObj → PyObj → TaskBeh)
    (st : DeployState) (k : PyObj) (f : List PyObj)
    (hf : getSet st.plan "finished" = .ok f)
    (hdep : pyGet st.plan "dependency" = .error (.keyError "dependency"))
    (hns : ¬ ∃ m r, unpack2 k = some (m, r) ∧ m ∈ f) :
    ∃ e, processKey drones beh st k = (st, some e) := by
  cases hu : unpack2 k with
  | none => exact ⟨.valueError, by simp [processKey, hu]⟩
  | some p =>
    obtain ⟨m, r⟩ := p
    have hmf : m ∉ f := fun hmem => hns ⟨m, r, hu, hmem⟩
    exact ⟨.keyError "dependency", by simp [processKey, hu, hf, hmf, hdep]⟩

/-- If some key of the scanned list is not skipped, the whole scan pass
raises and leaves the state untouched. -/
theorem scanPass_err (drones : List PyObj) (beh : PyObj → PyObj → TaskBeh)
    (st : DeployState) (ks : List PyObj) (f : List PyObj)
    (hf : getSet st.plan "finished" = .ok f)
    (hdep : pyGet st.plan "dependency" = .error (.keyError "dependency"))
    (hx : ∃ k ∈ ks, ¬ ∃ m r, unpack2 k = some (m, r) ∧ m ∈ f) :
    ∃ e, scanPass drones beh ks st = (st, some e) := by
  induction ks with
  | nil => obtain ⟨k, hk, _⟩ := hx; simp at hk
  | cons k rest ih =>
    by_cases hsk : ∃ m r, unpack2 k = some (m, r) ∧ m ∈ f
    · have hsk2 := hsk
      obtain ⟨m, r, hu, hmf⟩ := hsk2
      have hskip := processKey_skip drones beh st k m r f hf hu hmf
      obtain ⟨k2, hk2, hk2ns⟩ := hx
      rcases List.mem_cons.mp hk2 with hk2 | hk2
      · rw [hk2] at hk2ns
        exact absurd hsk hk2ns
      · obtain ⟨e, he⟩ := ih ⟨k2, hk2, hk2ns⟩
        exact ⟨e, by simp [scanPass, hskip, he]⟩
    · obtain ⟨e, he⟩ := processKey_err drones beh st k f hf hdep hsk
      exact ⟨e, by simp [scanPass, he]⟩

/-- C9: for every plan whose `waiting` (or `in-progress`) set is non-empty —
with the plan well-formed as the planner builds it: the three marker sets
drawn from the key set of `manifests`, and no `'dependency'` key in the plan
dict (`__init__` creates only `'dependecy'`, line 99) — `run_deployment`
raises on its first scan and deploys nothing: the loop at line 188 iterates
only the keys of `manifests` and unpacks each key itself into
`(marker, manifests)`, so the run aborts with the plan dict, the runner map
and the event trace exactly as they were after the phase start event. -/
theorem nonempty_plan_first_scan_raises (drones : List PyObj)
    (beh : PyObj → PyObj → TaskBeh) (d : PlanDict)
    (ms : List (PyObj × List (PyObj × PyObj))) (w ip f : List PyObj)
    (hm : pyGet d "manifests" = .ok (.odict ms))
    (hw : getSet d "waiting" = .ok w)
    (hip : getSet d "in-progress" = .ok ip)
    (hf : getSet d "finished" = .ok f)
    (hdep : pyGet d "dependency" = .error (.keyError "dependency"))
    (hne : w ≠ [] ∨ ip ≠ [])
    (hwk : ∀ x ∈ w, x ∈ ms.map Prod.fst)
    (hipk : ∀ x ∈ ip, x ∈ ms.map Prod.fst)
    (hfk : ∀ x ∈ f, x ∈ ms.map Prod.fst)
    (fuel : Nat) (hfuel : 1 ≤ fuel) :
    ∃ e, runDeployment drones beh d fuel
      = (⟨d, [], [Event.status "phase" "deployment" "start"]⟩, .errored e) := by
  obtain ⟨n, rfl⟩ : ∃ n, fuel = n + 1 := ⟨fuel - 1, by omega⟩
  set st0 : DeployState := ⟨d, [], [Event.status "phase" "deployment" "start"]⟩
    with hst0
  have hplan : st0.plan = d := rfl
  have hkeys_ne : ms.map Prod.fst ≠ [] := by
    rcases hne with hne | hne
    · obtain ⟨x, hx⟩ := List.exists_mem_of_ne_nil w hne
      exact List.ne_nil_of_mem (hwk x hx)
    · obtain ⟨x, hx⟩ := List.exists_mem_of_ne_nil ip hne
      exact List.ne_nil_of_mem (hipk x hx)
  have hx : ∃ k ∈ ms.map Prod.fst, ¬ ∃ m r, unpack2 k = some (m, r) ∧ m ∈ f := by
    by_contra hc
    push_neg at hc
    exact no_all_skip (ms.map Prod.fst) f hfk hkeys_ne
      (fun k hk => by
        obtain ⟨m, r, hu, hmf⟩ := hc k hk
        exact ⟨m, r, hu, hmf⟩)
  obtain ⟨e, hscan⟩ := scanPass_err drones beh st0 (ms.map Prod.fst) f
    (by rw [hplan]; exact hf) (by rw [hplan]; exact hdep) hx
  have hcond : loopCond st0.plan = .ok true := by
    rw [hplan]
    unfold loopCond
    rw [hw]
    rcases hne with hne | hne
    · simp [hne]
    · by_cases hwe : w = [] <;> simp [hwe, hip, hne]
  refine ⟨e, ?_⟩
  unfold runDeployment
  simp only [← hst0]
  have hloop : deployLoop drones beh (n + 1) st0 = (st0, .errored e) := by
    unfold deployLoop
    rw [hcond, hplan, hm]
    simp [asOdict, hscan]
  rw [hloop]

/-- Witness for C9 on the one-marker plan left behind by the plan phase. -/
theorem nonempty_plan_first_scan_raises_witness :
    ∃ e, runDeployment [host1] behOk planA 3
      = (⟨planA, [], [Event.status "phase" "deployment" "start"]⟩, .errored e) :=
  nonempty_plan_first_scan_raises [host1] behOk planA
    [(markerA, [(host1, mani1)])] [markerA] [] []
    (by decide) (by decide) (by decide) (by decide) (by decide)
    (Or.inl (by decide)) (by decide) (by decide) (by decide) 3 (by decide)

/-! ### A failing deploy task never lets its marker finish (C6) -/

/-- The only error a plan-dict read can raise is a KeyError for that key. -/
theorem pyGet_err {d : PlanDict} {k : String} {e : PyErr}
    (h : pyGet d k = .error e) : e = .keyError k := by
  unfold pyGet at h
  cases hf : d.find? (fun p => p.1 == k) with
  | none => rw [hf] at h; injection h with h; exact h.symm
  | some p => rw [hf] at h; cases h

/-- The only error a set view can raise is a TypeError. -/
theorem asSet_err {v : PlanVal} {e : PyErr} (h : asSet v = .error e) :
    e = .typeError := by
  cases v <;> simp [asSet] at h <;> exact h.symm

/-- The only error an OrderedDict view can raise is a TypeError. -/
theorem asOdict_err {v : PlanVal} {e : PyErr} (h : asOdict v = .error e) :
    e = .typeError := by
  cases v <;> simp [asOdict] at h <;> exact h.symm

/-- The only error a dependency-map view can raise is a TypeError. -/
theorem asDepm_err {v : PlanVal} {e : PyErr} (h : asDepm v = .error e) :
    e = .typeError := by
  cases v <;> simp [asDepm] at h <;> exact h.symm

/-- A set read from the plan dict can only raise KeyError or TypeError. -/
theorem getSet_err {d : PlanDict} {k : String} {e : PyErr}
    (h : getSet d k = .error e) : e = .keyError k ∨ e = .typeError := by
  unfold getSet at h
  cases hg : pyGet d k with
  | error e2 => rw [hg] at h; injection h with h; exact Or.inl (h ▸ pyGet_err hg)
  | ok v => rw [hg] at h; exact Or.inr (asSet_err h)

/-- The only error `set.remove` can raise is a KeyError for the element. -/
theorem setRemove_err {s : List PyObj} {x : PyObj} {e : PyErr}
    (h : setRemove s x = .error e) : e = .keyErrorObj x := by
  unfold setRemove at h
  by_cases hx : x ∈ s
  · simp [hx] at h
  · simp [hx] at h; exact h.symm

/-- Switching a task can only raise that task's own labelled error. -/
theorem switchTask_err {t : Task} {e : PyErr} (h : switchTask t = .error e) :
    e = .taskError t.label.1 t.label.2 := by
  unfold switchTask at h
  by_cases hd : t.dead
  · simp [hd] at h
  · cases hb : t.rem <;> simp [hd, hb] at h
    exact h.symm

/-- Switching a task never changes its label. -/
theorem switchTask_label {t t2 : Task} (h : switchTask t = .ok t2) :
    t2.label = t.label := by
  unfold switchTask at h
  by_cases hd : t.dead
  · rw [if_pos hd] at h
    injection h with h
    rw [← h]
  · rw [if_neg hd] at h
    cases hb : t.rem <;> rw [hb] at h
    · injection h with h
      rw [← h]
    · cases h
    · injection h with h
      rw [← h]

/-- A `wait_for_runners` pass over tasks all labelled with marker `mk` can
only raise an error attributed to `mk`. -/
theorem waitForRunners_err {ts : List Task} {mk : PyObj}
    (hl : ∀ t ∈ ts, t.label.1 = mk) :
    ∀ {e : PyErr}, waitForRunners ts = .error e → ∃ hh, e = .taskError mk hh := by
  induction ts with
  | nil => intro e h; cases h
  | cons t rest ih =>
    intro e h
    unfold waitForRunners at h
    by_cases hd : t.dead
    · rw [if_pos hd] at h
      exact ih (fun x hx => hl x (by simp [hx])) h
    · rw [if_neg hd] at h
      cases hsw : switchTask t with
      | error e2 =>
        rw [hsw] at h
        injection h with h
        refine ⟨t.label.2, ?_⟩
        rw [← h, switchTask_err hsw, hl t (by simp)]
      | ok t2 =>
        rw [hsw] at h
        cases hw : waitForRunners rest with
        | error e2 =>
          rw [hw] at h
          injection h with h
          obtain ⟨hh, he⟩ := ih (fun x hx => hl x (by simp [hx])) hw
          exact ⟨hh, h ▸ he⟩
        | ok r => rw [hw] at h; cases h

/-- A `wait_for_runners` pass never changes a task's label. -/
theorem waitForRunners_labels {ts ts2 : List Task}
    (h : waitForRunners ts = .ok ts2) :
    ∀ t2 ∈ ts2, ∃ t ∈ ts, t2.label = t.label := by
  induction ts generalizing ts2 with
  | nil =>
    unfold waitForRunners at h
    injection h with h
    subst h
    simp
  | cons t rest ih =>
    unfold waitForRunners at h
    by_cases hd : t.dead
    · rw [if_pos hd] at h
      intro t2 ht2
      obtain ⟨x, hx, he⟩ := ih h t2 ht2
      exact ⟨x, by simp [hx], he⟩
    · rw [if_neg hd] at h
      cases hsw : switchTask t with
      | error e2 => rw [hsw] at h; cases h
      | ok t1 =>
        rw [hsw] at h
        cases hw : waitForRunners rest with
        | error e2 => rw [hw] at h; cases h
        | ok r =>
          rw [hw] at h
          injection h with h
          subst h
          intro t2 ht2
          rcases List.mem_cons.mp ht2 with ht2 | ht2
          · exact ⟨t, by simp, by rw [ht2, switchTask_label hsw]⟩
          · obtain ⟨x, hx, he⟩ := ih hw t2 ht2
            exact ⟨x, by simp [hx], he⟩

/-- A successful lookup in an object-keyed dict returns a stored entry. -/
theorem olookup_mem {α : Type} {r : List (PyObj × α)} {mk : PyObj} {ts : α}
    (h : olookup r mk = some ts) : ∃ p ∈ r, p.1 = mk ∧ p.2 = ts := by
  unfold olookup at h
  cases hf : r.find? (fun p => p.1 == mk) with
  | none => rw [hf] at h; cases h
  | some p =>
    rw [hf] at h
    injection h with h
    refine ⟨p, List.mem_of_find?_eq_some hf, ?_, h⟩
    have := List.find?_some hf
    exact beq_iff_eq.mp this

/-- In a well-formed runners dict, every task found under a marker is
labelled with that marker. -/
theorem runnersWF_olookup {st : DeployState} {mk : PyObj} {ts : List Task}
    (hwf : runnersWF st) (h : olookup st.runners mk = some ts) :
    ∀ t ∈ ts, t.label.1 = mk := by
  obtain ⟨p, hp, hp1, hp2⟩ := olookup_mem h
  intro t ht
  rw [← hp1]
  exact hwf p hp t (hp2 ▸ ht)

/-- Adding a task labelled with its marker preserves runners
well-formedness. -/
theorem raddTask_wf {r : List (PyObj × List Task)} {mk : PyObj} {t0 : Task}
    (hr : ∀ p ∈ r, ∀ t ∈ p.2, t.label.1 = p.1) (h0 : t0.label.1 = mk) :
    ∀ p ∈ raddTask r mk t0, ∀ t ∈ p.2, t.label.1 = p.1 := by
  induction r with
  | nil =>
    intro p hp t ht
    simp [raddTask] at hp
    rw [hp] at ht ⊢
    simp at ht
    rw [ht, h0]
  | cons q rest ih =>
    intro p hp t ht
    unfold raddTask at hp
    by_cases hq : q.1 = mk
    · rw [if_pos hq] at hp
      rcases List.mem_cons.mp hp with hp | hp
      · rw [hp] at ht ⊢
        rcases List.mem_append.mp ht with ht | ht
        · simpa using hr q (by simp) t ht
        · simp at ht
          rw [ht, h0, hq]
      · exact hr p (by simp [hp]) t ht
    · rw [if_neg hq] at hp
      rcases List.mem_cons.mp hp with hp | hp
      · exact hr p (by simp [hp]) t ht
      · exact ih (fun x hx => hr x (by simp [hx])) p hp t ht

/-- Replacing the task list under a marker with tasks labelled by that
marker preserves runners well-formedness. -/
theorem rupdate_wf {r : List (PyObj × List Task)} {mk : PyObj} {ts2 : List Task}
    (hr : ∀ p ∈ r, ∀ t ∈ p.2, t.label.1 = p.1) (h2 : ∀ t ∈ ts2, t.label.1 = mk) :
    ∀ p ∈ rupdate r mk ts2, ∀ t ∈ p.2, t.label.1 = p.1 := by
  induction r with
  | nil => intro p hp; simp [rupdate] at hp
  | cons q rest ih =>
    intro p hp t ht
    unfold rupdate at hp
    by_cases hq : q.1 = mk
    · rw [if_pos hq] at hp
      rcases List.mem_cons.mp hp with hp | hp
      · rw [hp] at ht ⊢
        simp only at ht ⊢
        rw [h2 t ht, hq]
      · exact hr p (by simp [hp]) t ht
    · rw [if_neg hq] at hp
      rcases List.mem_cons.mp hp with hp | hp
      · exact hr p (by simp [hp]) t ht
      · exact ih (fun x hx => hr x (by simp [hx])) p hp t ht

/-- Spawning a marker's deploy tasks does not touch the plan dict. -/
theorem spawnPairs_plan (drones : List PyObj) (beh : PyObj → PyObj → TaskBeh)
    (mk : PyObj) : ∀ (ps : List PyObj) (st st' : DeployState) (r : Option PyErr),
    spawnPairs drones beh mk ps st = (st', r) → st'.plan = st.plan := by
  intro ps
  induction ps with
  | nil =>
    intro st st' r h
    unfold spawnPairs at h
    injection h with h1 h2
    rw [← h1]
  | cons p rest ih =>
    intro st st' r h
    unfold spawnPairs at h
    cases hu : unpack2 p with
    | none =>
      simp only [hu] at h
      injection h with h1 h2
      rw [← h1]
    | some q =>
      obtain ⟨host, mani⟩ := q
      simp only [hu] at h
      by_cases hd : host ∈ drones
      · rw [if_pos hd] at h
        cases hsw : switchTask ⟨(mk, host), beh host mani, false⟩ with
        | error e =>
          simp only [hsw] at h
          injection h with h1 h2
          rw [← h1]
        | ok t2 =>
          simp only [hsw] at h
          exact (ih _ _ _ h).trans rfl
      · rw [if_neg hd] at h
        injection h with h1 h2
        rw [← h1]

/-- Spawning a marker's deploy tasks preserves runners well-formedness:
every created task is labelled with the marker being initiated. -/
theorem spawnPairs_wf (drones : List PyObj) (beh : PyObj → PyObj → TaskBeh)
    (mk : PyObj) : ∀ (ps : List PyObj) (st st' : DeployState) (r : Option PyErr),
    runnersWF st → spawnPairs drones beh mk ps st = (st', r) → runnersWF st' := by
  intro ps
  induction ps with
  | nil =>
    intro st st' r hwf h
    unfold spawnPairs at h
    injection h with h1 h2
    rw [← h1]
    exact hwf
  | cons p rest ih =>
    intro st st' r hwf h
    unfold spawnPairs at h
    cases hu : unpack2 p with
    | none =>
      simp only [hu] at h
      injection h with h1 h2
      rw [← h1]
      exact hwf
    | some q =>
      obtain ⟨host, mani⟩ := q
      simp only [hu] at h
      by_cases hd : host ∈ drones
      · rw [if_pos hd] at h
        cases hsw : switchTask ⟨(mk, host), beh host mani, false⟩ with
        | error e =>
          simp only [hsw] at h
          injection h with h1 h2
          rw [← h1]
          exact fun p hp t ht =>
            @raddTask_wf st.runners mk ⟨(mk, host), beh host mani, false⟩ hwf rfl p hp t ht
        | ok t2 =>
          simp only [hsw] at h
          refine ih _ _ _ (fun p hp t ht => ?_) h
          have hlab : t2.label = ((mk, host) : PyObj × PyObj) := switchTask_label hsw
          exact @raddTask_wf st.runners mk t2 hwf (by rw [hlab]) p hp t ht
      · rw [if_neg hd] at h
        injection h with h1 h2
        rw [← h1]
        exact hwf

/-- The only task-attributed error spawning can raise is attributed to the
marker being initiated. -/
theorem spawnPairs_taskError (drones : List PyObj) (beh : PyObj → PyObj → TaskBeh)
    (mk : PyObj) : ∀ (ps : List PyObj) (st st' : DeployState) (M hh : PyObj),
    spawnPairs drones beh mk ps st = (st', some (.taskError M hh)) → M = mk := by
  intro ps
  induction ps with
  | nil =>
    intro st st' M hh h
    unfold spawnPairs at h
    injection h with h1 h2
    cases h2
  | cons p rest ih =>
    intro st st' M hh h
    unfold spawnPairs at h
    cases hu : unpack2 p with
    | none =>
      simp only [hu] at h
      injection h with h1 h2
      cases h2
    | some q =>
      obtain ⟨host, mani⟩ := q
      simp only [hu] at h
      by_cases hd : host ∈ drones
      · rw [if_pos hd] at h
        cases hsw : switchTask ⟨(mk, host), beh host mani, false⟩ with
        | error e =>
          simp only [hsw] at h
          injection h with h1 h2
          injection h2 with h2
          have := switchTask_err hsw
          rw [this] at h2
          cases h2
          rfl
        | ok t2 =>
          simp only [hsw] at h
          exact ih _ _ _ _ h
      · rw [if_neg hd] at h
        injection h with h1 h2
        cases h2

/-- Writing one plan key leaves reads of any other key unchanged. -/
theorem pyGet_pySet_ne {d : PlanDict} {k k2 : String} {v : PlanVal}
    (hne : k ≠ k2) : pyGet (pySet d k v) k2 = pyGet d k2 := by
  induction d with
  | nil =>
    have hb : (k == k2) = false := by simp [hne]
    simp [pySet, pyGet, List.find?, hb]
  | cons p rest ih =>
    unfold pySet
    by_cases hp : p.1 = k
    · rw [if_pos hp]
      unfold pyGet
      simp only [List.find?]
      have h1 : (k == k2) = false := by simp [hne]
      have h2 : (p.1 == k2) = false := by simp [hp, hne]
      rw [h1, h2]
    · rw [if_neg hp]
      unfold pyGet
      simp only [List.find?]
      cases hpk : p.1 == k2
      · exact ih
      · rfl

/-- Writing one plan key leaves set reads of any other key unchanged. -/
theorem getSet_pySet_ne {d : PlanDict} {k k2 : String} {v : PlanVal}
    (hne : k ≠ k2) : getSet (pySet d k v) k2 = getSet d k2 := by
  unfold getSet
  rw [pyGet_pySet_ne hne]

/-- Reading back the recorded finished set. -/
theorem finishedMarkers_of_getSet {st : DeployState} {f : List PyObj}
    (h : getSet st.plan "finished" = .ok f) : finishedMarkers st = f := by
  unfold finishedMarkers
  rw [h]

/-- Marker bookkeeping at lines 216-217 can only raise key or type errors,
never a task-attributed error. -/
theorem finishMarker_not_taskError {d : PlanDict} {mk M hh : PyObj}
    (h : finishMarker d mk = .error (.taskError M hh)) : False := by
  unfold finishMarker at h
  cases hf : getSet d "finished" with
  | error e =>
    simp only [hf] at h
    injection h with h
    rcases getSet_err hf with he | he <;> rw [he] at h <;> cases h
  | ok f =>
    simp only [hf] at h
    cases hip : getSet (pySet d "finished" (.pset (setAdd f mk))) "in-progress" with
    | error e =>
      simp only [hip] at h
      injection h with h
      rcases getSet_err hip with he | he <;> rw [he] at h <;> cases h
    | ok ip =>
      simp only [hip] at h
      cases hrm : setRemove ip mk with
      | error e =>
        simp only [hrm] at h
        injection h with h
        rw [setRemove_err hrm] at h
        cases h
      | ok ip2 => rw [hrm] at h; cases h

/-- Initiating a marker leaves the recorded finished set unchanged: only the
`waiting` and `in-progress` entries of the plan dict are written. -/
theorem initiateIfNew_finished {drones : List PyObj} {beh : PyObj → PyObj → TaskBeh}
    {st st' : DeployState} {mk mv : PyObj} {r : Option PyErr}
    (h : initiateIfNew drones beh st mk mv = (st', r)) :
    getSet st'.plan "finished" = getSet st.plan "finished" := by
  unfold initiateIfNew at h
  cases hl : olookup st.runners mk with
  | some ts =>
    simp only [hl] at h
    injection h with h1 h2
    rw [← h1]
  | none =>
    simp only [hl] at h
    cases hw : getSet st.plan "waiting" with
    | error e =>
      simp only [hw] at h
      injection h with h1 h2
      rw [← h1]
    | ok w =>
      simp only [hw] at h
      cases hrm : setRemove w mk with
      | error e =>
        simp only [hrm] at h
        injection h with h1 h2
        rw [← h1]
      | ok w2 =>
        simp only [hrm] at h
        cases hip : getSet (pySet st.plan "waiting" (.pset w2)) "in-progress" with
        | error e =>
          simp only [hip] at h
          injection h with h1 h2
          rw [← h1]
          exact getSet_pySet_ne (by decide)
        | ok ip =>
          simp only [hip] at h
          have hplan := spawnPairs_plan drones beh mk (pyIter mv) _ _ _ h
          rw [hplan]
          have h1 : getSet (pySet (pySet st.plan "waiting" (.pset w2)) "in-progress"
              (.pset (setAdd ip mk))) "finished"
              = getSet (pySet st.plan "waiting" (.pset w2)) "finished" :=
            getSet_pySet_ne (by decide)
          rw [h1]
          exact getSet_pySet_ne (by decide)

/-- Initiating a marker preserves runners well-formedness. -/
theorem initiateIfNew_wf {drones : List PyObj} {beh : PyObj → PyObj → TaskBeh}
    {st st' : DeployState} {mk mv : PyObj} {r : Option PyErr}
    (hwf : runnersWF st) (h : initiateIfNew drones beh st mk mv = (st', r)) :
    runnersWF st' := by
  unfold initiateIfNew at h
  cases hl : olookup st.runners mk with
  | some ts =>
    simp only [hl] at h
    injection h with h1 h2
    rw [← h1]
    exact hwf
  | none =>
    simp only [hl] at h
    cases hw : getSet st.plan "waiting" with
    | error e =>
      simp only [hw] at h
      injection h with h1 h2
      rw [← h1]
      exact hwf
    | ok w =>
      simp only [hw] at h
      cases hrm : setRemove w mk with
      | error e =>
        simp only [hrm] at h
        injection h with h1 h2
        rw [← h1]
        exact hwf
      | ok w2 =>
        simp only [hrm] at h
        cases hip : getSet (pySet st.plan "waiting" (.pset w2)) "in-progress" with
        | error e =>
          simp only [hip] at h
          injection h with h1 h2
          rw [← h1]
          exact hwf
        | ok ip =>
          simp only [hip] at h
          exact spawnPairs_wf drones beh mk (pyIter mv)
            { st with
                plan :=
                  pySet (pySet st.plan "waiting" (.pset w2)) "in-progress"
                    (.pset (setAdd ip mk)) }
            _ _ (fun p hp t ht => hwf p hp t ht) h

/-- The only task-attributed error marker initiation can raise is attributed
to the marker being initiated. -/
theorem initiateIfNew_taskError {drones : List PyObj} {beh : PyObj → PyObj → TaskBeh}
    {st st' : DeployState} {mk mv M hh : PyObj}
    (h : initiateIfNew drones beh st mk mv = (st', some (.taskError M hh))) :
    M = mk := by
  unfold initiateIfNew at h
  cases hl : olookup st.runners mk with
  | some ts =>
    simp only [hl] at h
    injection h with h1 h2
    cases h2
  | none =>
    simp only [hl] at h
    cases hw : getSet st.plan "waiting" with
    | error e =>
      simp only [hw] at h
      injection h with h1 h2
      injection h2 with h2
      rcases getSet_err hw with he | he <;> rw [he] at h2 <;> cases h2
    | ok w =>
      simp only [hw] at h
      cases hrm : setRemove w mk with
      | error e =>
        simp only [hrm] at h
        injection h with h1 h2
        injection h2 with h2
        rw [setRemove_err hrm] at h2
        cases h2
      | ok w2 =>
        simp only [hrm] at h
        cases hip : getSet (pySet st.plan "waiting" (.pset w2)) "in-progress" with
        | error e =>
          simp only [hip] at h
          injection h with h1 h2
          injection h2 with h2
          rcases getSet_err hip with he | he <;> rw [he] at h2 <;> cases h2
        | ok ip =>
          simp only [hip] at h
          exact spawnPairs_taskError drones beh mk (pyIter mv) _ _ _ _ h

/-- If the scan of one key aborts with a task-attributed error for marker
`M`, then `M` is not in the finished set of the state at the abort: `M`
passed the finished check of line 190 on this very pass, and the finished
add of line 216 runs only after a successful drain. -/
theorem processKey_taskError {drones : List PyObj} {beh : PyObj → PyObj → TaskBeh}
    {st st' : DeployState} {k M hh : PyObj} (hwf : runnersWF st)
    (h : processKey drones beh st k = (st', some (.taskError M hh))) :
    M ∉ finishedMarkers st' := by
  unfold processKey at h
  cases hu : unpack2 k with
  | none =>
    simp only [hu] at h
    injection h with h1 h2
    injection h2 with h2
    cases h2
  | some q =>
    obtain ⟨marker, manivar⟩ := q
    simp only [hu] at h
    cases hfin : getSet st.plan "finished" with
    | error e =>
      simp only [hfin] at h
      injection h with h1 h2
      injection h2 with h2
      rcases getSet_err hfin with he | he <;> rw [he] at h2 <;> cases h2
    | ok fin =>
      simp only [hfin] at h
      by_cases hmem : marker ∈ fin
      · simp only [if_pos hmem] at h
        injection h with h1 h2
        cases h2
      · simp only [if_neg hmem] at h
        cases hdep : pyGet st.plan "dependency" with
        | error e =>
          simp only [hdep] at h
          injection h with h1 h2
          injection h2 with h2
          rw [pyGet_err hdep] at h2
          cases h2
        | ok dv =>
          simp only [hdep] at h
          cases hdm : asDepm dv with
          | error e =>
            simp only [hdm] at h
            injection h with h1 h2
            injection h2 with h2
            rw [asDepm_err hdm] at h2
            cases h2
          | ok dep =>
            simp only [hdm] at h
            cases hlk : olookup dep marker with
            | none =>
              simp only [hlk] at h
              injection h with h1 h2
              injection h2 with h2
              cases h2
            | some reqs =>
              simp only [hlk] at h
              by_cases hreq : reqs.filter (fun x => decide (x ∉ fin)) ≠ []
              · simp only [if_pos hreq] at h
                injection h with h1 h2
                cases h2
              · simp only [if_neg hreq] at h
                cases hin : initiateIfNew drones beh st marker manivar with
                | mk st1 ropt =>
                  simp only [hin] at h
                  have hfin1 : finishedMarkers st1 = fin := by
                    have := initiateIfNew_finished hin
                    exact finishedMarkers_of_getSet (by rw [this, hfin])
                  cases ropt with
                  | some e =>
                    injection h with h1 h2
                    injection h2 with h2
                    have hM : M = marker := initiateIfNew_taskError (h2 ▸ hin)
                    rw [← h1, hfin1, hM]
                    exact hmem
                  | none =>
                    cases hlk2 : olookup st1.runners marker with
                    | none =>
                      simp only [hlk2] at h
                      injection h with h1 h2
                      injection h2 with h2
                      cases h2
                    | some ts =>
                      simp only [hlk2] at h
                      have hwf1 : runnersWF st1 := initiateIfNew_wf hwf hin
                      cases hwr : waitForRunners ts with
                      | error e =>
                        simp only [hwr] at h
                        injection h with h1 h2
                        injection h2 with h2
                        have hlab := runnersWF_olookup hwf1 hlk2
                        obtain ⟨hh2, he⟩ := waitForRunners_err hlab hwr
                        rw [h2] at he
                        injection he with he1 he2
                        rw [← h1, hfin1, he1]
                        exact hmem
                      | ok ts2 =>
                        simp only [hwr] at h
                        by_cases hts2 : ts2 = []
                        · simp only [if_pos hts2] at h
                          cases hfm : finishMarker st1.plan marker with
                          | error e =>
                            simp only [hfm] at h
                            injection h with h1 h2
                            injection h2 with h2
                            exact absurd (h2 ▸ hfm) (fun hc =>
                              finishMarker_not_taskError hc)
                          | ok d2 =>
                            simp only [hfm] at h
                            injection h with h1 h2
                            cases h2
                        · simp only [if_neg hts2] at h
                          injection h with h1 h2
                          cases h2

/-- Scanning one key preserves runners well-formedness. -/
theorem processKey_wf {drones : List PyObj} {beh : PyObj → PyObj → TaskBeh}
    {st st' : DeployState} {k : PyObj} {r : Option PyErr} (hwf : runnersWF st)
    (h : processKey drones beh st k = (st', r)) : runnersWF st' := by
  unfold processKey at h
  cases hu : unpack2 k with
  | none =>
    simp only [hu] at h
    injection h with h1 h2
    rw [← h1]
    exact hwf
  | some q =>
    obtain ⟨marker, manivar⟩ := q
    simp only [hu] at h
    cases hfin : getSet st.plan "finished" with
    | error e =>
      simp only [hfin] at h
      injection h with h1 h2
      rw [← h1]
      exact hwf
    | ok fin =>
      simp only [hfin] at h
      by_cases hmem : marker ∈ fin
      · simp only [if_pos hmem] at h
        injection h with h1 h2
        rw [← h1]
        exact hwf
      · simp only [if_neg hmem] at h
        cases hdep : pyGet st.plan "dependency" with
        | error e =>
          simp only [hdep] at h
          injection h with h1 h2
          rw [← h1]
          exact hwf
        | ok dv =>
          simp only [hdep] at h
          cases hdm : asDepm dv with
          | error e =>
            simp only [hdm] at h
            injection h with h1 h2
            rw [← h1]
            exact hwf
          | ok dep =>
            simp only [hdm] at h
            cases hlk : olookup dep marker with
            | none =>
              simp only [hlk] at h
              injection h with h1 h2
              rw [← h1]
              exact hwf
            | some reqs =>
              simp only [hlk] at h
              by_cases hreq : reqs.filter (fun x => decide (x ∉ fin)) ≠ []
              · simp only [if_pos hreq] at h
                injection h with h1 h2
                rw [← h1]
                exact hwf
              · simp only [if_neg hreq] at h
                cases hin : initiateIfNew drones beh st marker manivar with
                | mk st1 ropt =>
                  simp only [hin] at h
                  have hwf1 : runnersWF st1 := initiateIfNew_wf hwf hin
                  cases ropt with
                  | some e =>
                    injection h with h1 h2
                    rw [← h1]
                    exact hwf1
                  | none =>
                    cases hlk2 : olookup st1.runners marker with
                    | none =>
                      simp only [hlk2] at h
                      injection h with h1 h2
                      rw [← h1]
                      exact hwf1
                    | some ts =>
                      simp only [hlk2] at h
                      cases hwr : waitForRunners ts with
                      | error e =>
                        simp only [hwr] at h
                        injection h with h1 h2
                        rw [← h1]
                        exact hwf1
                      | ok ts2 =>
                        simp only [hwr] at h
                        have hlab : ∀ t ∈ ts2, t.label.1 = marker := by
                          intro t ht
                          obtain ⟨t0, ht0, hte⟩ := waitForRunners_labels hwr t ht
                          rw [hte]
                          exact runnersWF_olookup hwf1 hlk2 t0 ht0
                        have hupd : ∀ p ∈ rupdate st1.runners marker ts2,
                            ∀ t ∈ p.2, t.label.1 = p.1 :=
                          @rupdate_wf st1.runners marker ts2
                            (fun p hp t ht => hwf1 p hp t ht) hlab
                        by_cases hts2 : ts2 = []
                        · simp only [if_pos hts2] at h
                          cases hfm : finishMarker st1.plan marker with
                          | error e =>
                            simp only [hfm] at h
                            injection h with h1 h2
                            rw [← h1]
                            exact fun p hp t ht => hupd p hp t ht
                          | ok d2 =>
                            simp only [hfm] at h
                            injection h with h1 h2
                            rw [← h1]
                            exact fun p hp t ht => hupd p hp t ht
                        · simp only [if_neg hts2] at h
                          injection h with h1 h2
                          rw [← h1]
                          exact fun p hp t ht => hupd p hp t ht

/-- If a scan pass aborts with a task-attributed error for marker `M`, then
`M` is not finished in the state at the abort. -/
theorem scanPass_taskError {drones : List PyObj} {beh : PyObj → PyObj → TaskBeh}
    {ks : List PyObj} : ∀ {st st' : DeployState} {M hh : PyObj},
    runnersWF st → scanPass drones beh ks st = (st', some (.taskError M hh)) →
    M ∉ finishedMarkers st' := by
  induction ks with
  | nil =>
    intro st st' M hh hwf h
    unfold scanPass at h
    injection h with h1 h2
    cases h2
  | cons k rest ih =>
    intro st st' M hh hwf h
    unfold scanPass at h
    cases hpk : processKey drones beh st k with
    | mk st1 ropt =>
      simp only [hpk] at h
      cases ropt with
      | some e =>
        injection h with h1 h2
        injection h2 with h2
        rw [← h1]
        exact processKey_taskError hwf (by rw [hpk, h2])
      | none => exact ih (processKey_wf hwf hpk) h

/-- A scan pass preserves runners well-formedness. -/
theorem scanPass_wf {drones : List PyObj} {beh : PyObj → PyObj → TaskBeh}
    {ks : List PyObj} : ∀ {st st' : DeployState} {r : Option PyErr},
    runnersWF st → scanPass drones beh ks st = (st', r) → runnersWF st' := by
  induction ks with
  | nil =>
    intro st st' r hwf h
    unfold scanPass at h
    injection h with h1 h2
    rw [← h1]
    exact hwf
  | cons k rest ih =>
    intro st st' r hwf h
    unfold scanPass at h
    cases hpk : processKey drones beh st k with
    | mk st1 ropt =>
      simp only [hpk] at h
      cases ropt with
      | some e =>
        injection h with h1 h2
        rw [← h1]
        exact processKey_wf hwf hpk
      | none => exact ih (processKey_wf hwf hpk) h

/-- The while-condition check can only raise key or type errors. -/
theorem loopCond_err {d : PlanDict} {e : PyErr} (h : loopCond d = .error e) :
    e = .keyError "waiting" ∨ e = .keyError "in-progress" ∨ e = .typeError := by
  unfold loopCond at h
  cases hw : getSet d "waiting" with
  | error e2 =>
    simp only [hw] at h
    injection h with h
    rcases getSet_err hw with he | he <;> rw [← h, he]
    · exact Or.inl rfl
    · exact Or.inr (Or.inr rfl)
  | ok w =>
    simp only [hw] at h
    by_cases hwe : w ≠ []
    · rw [if_pos hwe] at h
      cases h
    · rw [if_neg hwe] at h
      cases hip : getSet d "in-progress" with
      | error e2 =>
        simp only [hip] at h
        injection h with h
        rcases getSet_err hip with he | he <;> rw [← h, he]
        · exact Or.inr (Or.inl rfl)
        · exact Or.inr (Or.inr rfl)
      | ok ip => simp only [hip] at h; cases h

/-- If the deployment loop aborts with a task-attributed error for marker
`M`, then `M` is not finished in the state at the abort. -/
theorem deployLoop_taskError {drones : List PyObj} {beh : PyObj → PyObj → TaskBeh}
    {fuel : Nat} : ∀ {st st' : DeployState} {M hh : PyObj},
    runnersWF st → deployLoop drones beh fuel st = (st', .errored (.taskError M hh)) →
    M ∉ finishedMarkers st' := by
  induction fuel with
  | zero =>
    intro st st' M hh hwf h
    unfold deployLoop at h
    cases hc : loopCond st.plan with
    | error e =>
      simp only [hc] at h
      injection h with h1 h2
      injection h2 with h2
      rcases loopCond_err hc with he | he | he <;> rw [he] at h2 <;> cases h2
    | ok b =>
      cases b <;> simp only [hc] at h <;> injection h with h1 h2 <;> cases h2
  | succ n ih =>
    intro st st' M hh hwf h
    unfold deployLoop at h
    cases hc : loopCond st.plan with
    | error e =>
      simp only [hc] at h
      injection h with h1 h2
      injection h2 with h2
      rcases loopCond_err hc with he | he | he <;> rw [he] at h2 <;> cases h2
    | ok b =>
      cases b with
      | false =>
        simp only [hc] at h
        injection h with h1 h2
        cases h2
      | true =>
        simp only [hc] at h
        cases hm : pyGet st.plan "manifests" with
        | error e =>
          simp only [hm] at h
          injection h with h1 h2
          injection h2 with h2
          rw [pyGet_err hm] at h2
          cases h2
        | ok mv =>
          simp only [hm] at h
          cases ho : asOdict mv with
          | error e =>
            simp only [ho] at h
            injection h with h1 h2
            injection h2 with h2
            rw [asOdict_err ho] at h2
            cases h2
          | ok ms =>
            simp only [ho] at h
            cases hsp : scanPass drones beh (ms.map Prod.fst) st with
            | mk st1 ropt =>
              simp only [hsp] at h
              cases ropt with
              | some e =>
                injection h with h1 h2
                injection h2 with h2
                rw [← h1]
                exact scanPass_taskError hwf (by rw [hsp, h2])
              | none => exact ih (scanPass_wf hwf hsp) h

/-- C6: if a per-host deploy task for a marker `M` fails, the failure
propagates out of `run_deployment` as that task's error — the source has no
handler, and an exception in a greenlet is re-raised in the switching parent
— and `M` is never added to the plan's `finished` set: the bookkeeping of
line 216 runs only after all of the marker's tasks have been observed dead,
and a raising task aborts the run at once. -/
theorem deploy_failure_not_finished (drones : List PyObj)
    (beh : PyObj → PyObj → TaskBeh) (d : PlanDict) (fuel : Nat)
    (M hh : PyObj) (st : DeployState)
    (h : runDeployment drones beh d fuel = (st, .errored (.taskError M hh))) :
    M ∉ finishedMarkers st := by
  unfold runDeployment at h
  cases hdl : deployLoop drones beh fuel
      ⟨d, [], [Event.status "phase" "deployment" "start"]⟩ with
  | mk st1 out =>
    simp only [hdl] at h
    cases out with
    | completed =>
      injection h with h1 h2
      cases h2
    | outOfFuel =>
      injection h with h1 h2
      cases h2
    | errored e =>
      injection h with h1 h2
      injection h2 with h2
      rw [← h1]
      refine deployLoop_taskError (fun p hp => ?_) (by rw [hdl, h2])
      cases hp

/-- Witness for C6: on a plan state where the deploy path is reachable and
the single deploy task of marker A raises, the run aborts with that task's
error and marker A is absent from `finished`. -/
theorem deploy_failure_not_finished_witness :
    markerA ∉ finishedMarkers
      (runDeployment [host1] (fun _ _ => .fail) planFail 5).1 :=
  deploy_failure_not_finished [host1] (fun _ _ => .fail) planFail 5 markerA host1
    (runDeployment [host1] (fun _ _ => .fail) planFail 5).1 (by decide)

end Kanzo
